import Mathlib

/-!
Verification development for the News Researcher RAG application
(`app.py`, `populate_database.py`, `embedding_model.py`).

The application is a Streamlit shell over a scrape → chunk → embed → retrieve
pipeline.  We shallowly embed its state and operations:

* the filesystem facts the code queries (`os.path.exists` on the chroma index
  directory and on the deletion marker file) become a record of booleans;
* Streamlit messages (`st.success` / `st.error` / `st.warning` / `st.info`)
  become an explicit message list returned by each operation;
* third-party effects (HTTP fetch + BeautifulSoup extraction, the langchain
  text splitter, the Chroma vector store) are not repository code; where a
  claim depends on them they are modelled from the spec, with a doc comment
  saying so;
* exceptions are modelled by enumerating the outcomes the code distinguishes
  (`RmOutcome` for `shutil.rmtree`, `FetchResult` for the per-URL fetch);
  every embedded operation is a total function, which is how "no unhandled
  exception escapes" is rendered.
-/

namespace NewsResearcher

/-- A document: extracted text plus the source URL stored in its metadata
(`Document(page_content=text, metadata={"source": url})` in
`populate_database.py`).  Chunks produced by `split_document` and entries of
the vector store have the same shape (spec §3: SourceDocument, Chunk,
IndexEntry all carry `text` and `source_url`). -/
structure Document where
  page_content : String
  source : String
deriving DecidableEq, Repr

/-- A user-visible Streamlit message: `st.success`, `st.error`, `st.warning`
or `st.info` with its text. -/
inductive Msg where
  | success (t : String)
  | error (t : String)
  | warning (t : String)
  | info (t : String)
deriving DecidableEq, Repr

/-- The filesystem facts the code observes: whether the chroma index
directory (`CHROMA_PATH = "chroma"`) exists and whether the deletion marker
file (`delete_chroma.marker`, sibling of the index directory) exists. -/
structure FS where
  chromaExists : Bool
  markerExists : Bool
deriving DecidableEq, Repr

/-- Outcome of the `shutil.rmtree(CHROMA_PATH)` call in
`check_deletion_marker` (`app.py` lines 32-37): it succeeds, raises
`PermissionError` (caught by the inner handler), or raises some other
exception (caught by the outer handler). -/
inductive RmOutcome where
  | ok
  | permissionError
  | otherError (e : String)
deriving DecidableEq, Repr

/-- The locked-database message of `app.py` line 36. -/
def lockedMsg : String :=
  "Database files are still locked. Please manually delete the \x27chroma\x27 folder and restart."

/-- The startup success message of `app.py` line 45. -/
def clearedMsg : String := "Database cleared successfully on startup"

/-- `check_deletion_marker` (`app.py` lines 18-54).  If the marker file
exists: inside a `try`, if the index directory exists it attempts
`shutil.rmtree`; a `PermissionError` is caught and appends the locked error
message; the marker file is then removed regardless; the success message is
appended only if the index directory no longer exists; it returns
`(True, messages)`.  Any other exception falls to the outer handler, which
removes the marker, appends a failure message, and falls through to
`return False, messages`.  If the marker does not exist it returns
`(False, [])`.  The `rm` parameter is the outcome of the `rmtree` call
(irrelevant when it is not attempted); removal of the plain marker file is
modelled as always succeeding. -/
def check_deletion_marker (rm : RmOutcome) (fs : FS) : FS × Bool × List Msg :=
  if fs.markerExists then
    match fs.chromaExists, rm with
    | true, RmOutcome.ok =>
        (⟨false, false⟩, true, [Msg.success clearedMsg])
    | true, RmOutcome.permissionError =>
        (⟨true, false⟩, true, [Msg.error lockedMsg])
    | true, RmOutcome.otherError e =>
        (⟨true, false⟩, false,
          [Msg.error ("Failed to clear database on startup: " ++ e)])
    | false, _ =>
        (⟨false, false⟩, true, [Msg.success clearedMsg])
  else (fs, false, [])

/-- `clear_database` (`populate_database.py` lines 90-107): writes the marker
file (`open(marker_file, "w")`), shows a success, a warning and an info
message; if the write raises, the exception is caught and an error message is
shown instead.  `writeOk` is the outcome of the file write. -/
def clear_database (writeOk : Bool) (fs : FS) : FS × List Msg :=
  if writeOk then
    ({ fs with markerExists := true },
     [Msg.success "Database marked for deletion",
      Msg.warning "To complete database clearing, please:",
      Msg.info "1. Close this browser tab\n2. Stop the Streamlit server with Ctrl+C in your terminal\n3. Run \x27streamlit run app.py\x27 again"])
  else
    (fs, [Msg.error "Error marking database for deletion"])

/-- Outcome of fetching one URL, abstracting `requests.get` + HTML parsing +
text extraction (`populate_database.py` lines 20-60): either some exception
was raised (non-2xx via `raise_for_status`, network error, parse error), or
the extraction completed and produced a (possibly empty) text. -/
inductive FetchResult where
  | success (text : String)
  | failure (e : String)
deriving DecidableEq, Repr

/-- The body of the `for url in urls` loop of `fetch_content`
(`populate_database.py` lines 18-68), for one URL: an info message is shown,
then on an exception an error message is shown and no document is produced;
on success, a `Document(page_content=text, metadata={"source": url})` is
appended when the text is non-empty, and a warning is shown (with no
document) when it is empty.  `o` is the fetch oracle for the environment. -/
def fetch_one (o : String → FetchResult) (url : String) : List Msg × List Document :=
  match o url with
  | FetchResult.failure e =>
      ([Msg.info ("Fetching content from " ++ url ++ "..."),
        Msg.error ("Failed to fetch " ++ url ++ ": " ++ e)], [])
  | FetchResult.success t =>
      if t = "" then
        ([Msg.info ("Fetching content from " ++ url ++ "..."),
          Msg.warning ("No content extracted from " ++ url)], [])
      else
        ([Msg.info ("Fetching content from " ++ url ++ "..."),
          Msg.success ("Successfully processed " ++ url)],
         [{ page_content := t, source := url }])

/-- `fetch_content(urls)` (`populate_database.py` lines 11-70): iterates over
the URLs in order, accumulating messages and successfully extracted
documents; the `try`/`except` around each iteration keeps one URL's failure
from aborting the rest. -/
def fetch_content (o : String → FetchResult) (urls : List String) : List Msg × List Document :=
  urls.foldl
    (fun acc url =>
      let r := fetch_one o url
      (acc.1 ++ r.1, acc.2 ++ r.2))
    ([], [])

/-- `chunk_size = 800` of the text splitter. -/
def chunkSize : Nat := 800

/-- `chunk_overlap = 80` of the text splitter. -/
def chunkOverlap : Nat := 80

/-- The character distance between the starts of two consecutive windows:
window length minus overlap. -/
def chunkStep : Nat := chunkSize - chunkOverlap

/-- Modelled from the spec: langchain's `RecursiveCharacterTextSplitter`
(used by `split_document`, `populate_database.py` lines 72-80) is third-party
code not in this repository.  Per spec §4.2 it splits a text into overlapping
windows of target character length 800 with overlap 80; the
structural-boundary preference (paragraph, line, word) only moves where a cut
falls, so we model the windows as fixed-stride character windows: each window
starts `chunkStep = 720` characters after the previous one and spans at most
`chunkSize = 800` characters.  `windowsFrom cs pos` returns the windows of
`cs` paired with their start offsets (the first starting at `pos`). -/
def windowsFromAux : Nat → List Char → Nat → List (Nat × List Char)
  | 0, cs, pos => [(pos, cs)]
  | fuel + 1, cs, pos =>
    if cs.length ≤ chunkSize then [(pos, cs)]
    else (pos, cs.take chunkSize) :: windowsFromAux fuel (cs.drop chunkStep) (pos + chunkStep)

/-- The windows of `cs`: `windowsFromAux` with fuel `cs.length`, which is
enough because every recursive step drops `chunkStep > 0` characters. -/
def windowsFrom (cs : List Char) (pos : Nat) : List (Nat × List Char) :=
  windowsFromAux cs.length cs pos

/-- The chunk texts of one document text: the windows without their offsets. -/
def splitText (s : String) : List String :=
  (windowsFrom s.toList 0).map (fun w => String.mk w.2)

/-- `split_document(documents)` (`populate_database.py` lines 72-80): splits
each document's text into chunks (see `windowsFrom`), every chunk keeping its
parent document's source metadata. -/
def split_document (documents : List Document) : List Document :=
  documents.flatMap
    (fun d => (splitText d.page_content).map
      (fun t => { page_content := t, source := d.source }))

/-- `add_to_chroma(chunks)` (`populate_database.py` lines 82-88): the Chroma
store itself is third-party; per spec §4.3 `add` upserts each chunk's
`(embedding, text, source_url)` into the persistent index, so the index is
modelled as the list of stored documents and `add` appends to it. -/
def add_to_chroma (store : List Document) (chunks : List Document) : List Document :=
  store ++ chunks

/-- The index contents reachable by a sequence of `add_to_chroma` calls
starting from an empty index. -/
def storeOf (batches : List (List Document)) : List Document :=
  batches.foldl add_to_chroma []

/-- Insert a document into a list sorted by descending score (helper for the
similarity-ranking model of retrieval). -/
def insertSorted (score : Document → Nat) (d : Document) : List Document → List Document
  | [] => [d]
  | e :: es => if score e ≤ score d then d :: e :: es else e :: insertSorted score d es

/-- Sort a list of documents by descending score. -/
def sortByScore (score : Document → Nat) (l : List Document) : List Document :=
  l.foldr (insertSorted score) []

/-- Modelled from the spec: Chroma similarity search
(`db.as_retriever(search_kwargs={"k": 5})` in `app.py` lines 126-127) is
third-party code.  Per spec §4.3, `retrieve(query, k)` embeds the query and
returns the `k` stored entries nearest to it under the store's similarity
metric; embedding + metric are abstracted into a similarity scoring oracle
`sim`, and retrieval returns the first `k` entries of the store sorted by
descending similarity to the query. -/
def retrieve (sim : String → Document → Nat) (query : String) (k : Nat)
    (store : List Document) : List Document :=
  (sortByScore (sim query) store).take k

/-- The in-process application state (`app.py`): the filesystem facts, the
persistent index contents, and the Streamlit session state
`st.session_state.processed_urls`. -/
structure AppState where
  fs : FS
  index : List Document
  processed_urls : List String
deriving DecidableEq, Repr

/-- The state of a freshly started process before any button press: no index
directory, no marker, empty index, empty session state. -/
def initialState : AppState :=
  { fs := ⟨false, false⟩, index := [], processed_urls := [] }

/-- The "Process Articles" handler (`app.py` lines 89-105): filter out blank
URL fields; if none remain, warn; otherwise `fetch_content`, and if it
produced documents, `split_document`, `add_to_chroma` (which materialises the
index directory) and set `processed_urls` to the submitted URL list, else
show an error and change nothing. -/
def process_button_action (o : String → FetchResult) (u1 u2 u3 : String)
    (s : AppState) : AppState × List Msg :=
  let urls := [u1, u2, u3].filter (fun u => decide (u ≠ ""))
  if urls = [] then
    (s, [Msg.warning "Please enter at least one URL."])
  else
    let fetched := fetch_content o urls
    if fetched.2 = [] then
      (s, fetched.1 ++ [Msg.error "No content could be retrieved from the provided URLs."])
    else
      let chunks := split_document fetched.2
      ({ fs := { s.fs with chromaExists := true },
         index := add_to_chroma s.index chunks,
         processed_urls := urls },
       fetched.1 ++
         [Msg.success ("Processed " ++ toString fetched.2.length ++ " articles successfully!")])

/-- The "Clear Database" handler (`app.py` lines 107-110): `clear_database()`
then reset `st.session_state.processed_urls` to the empty list. -/
def clear_button_action (writeOk : Bool) (s : AppState) : AppState × List Msg :=
  let r := clear_database writeOk s.fs
  ({ s with fs := r.1, processed_urls := [] }, r.2)

/-- Process startup (`app.py` lines 18-61): `check_deletion_marker` runs
before any index access; a fresh Streamlit session starts with
`processed_urls = []`; the on-disk index survives unless its directory was
just removed. -/
def startup (rm : RmOutcome) (s : AppState) : AppState × Bool × List Msg :=
  let r := check_deletion_marker rm s.fs
  ({ fs := r.1,
     index := if r.1.chromaExists then s.index else [],
     processed_urls := [] },
   r.2.1, r.2.2)

/-- A concrete fetch environment used by witnesses: the URL "bad" fails with
a network error, every other URL yields the text "text " followed by the
URL. -/
def demoOracle : String → FetchResult :=
  fun u => if u = "bad" then FetchResult.failure "boom" else FetchResult.success ("text " ++ u)

/-! ### Helper lemmas -/

theorem string_toList_length (s : String) : s.toList.length = s.length := rfl

theorem string_mk_toList (s : String) : String.mk s.toList = s := rfl

theorem windowsFromAux_ne_nil (fuel : Nat) (cs : List Char) (pos : Nat) :
    windowsFromAux fuel cs pos ≠ [] := by
  cases fuel with
  | zero => simp [windowsFromAux]
  | succ n =>
    simp only [windowsFromAux]
    split <;> simp

theorem windowsFromAux_head (fuel : Nat) (cs : List Char) (pos : Nat) :
    ∃ t l, windowsFromAux fuel cs pos = (pos, t) :: l := by
  cases fuel with
  | zero => exact ⟨cs, [], rfl⟩
  | succ n =>
    simp only [windowsFromAux]
    split
    · exact ⟨cs, [], rfl⟩
    · exact ⟨cs.take chunkSize, _, rfl⟩

theorem windowsFromAux_len_le (fuel : Nat) (cs : List Char) (pos : Nat)
    (h : cs.length ≤ fuel + chunkSize) :
    ∀ w ∈ windowsFromAux fuel cs pos, w.2.length ≤ chunkSize := by
  induction fuel generalizing cs pos with
  | zero =>
    intro w hw
    simp [windowsFromAux] at hw
    subst hw
    simpa using h
  | succ n ih =>
    intro w hw
    simp only [windowsFromAux] at hw
    split at hw
    · rename_i hle
      simp at hw
      subst hw
      simpa using hle
    · rename_i hgt
      rcases List.mem_cons.mp hw with h1 | h1
      · subst h1
        simp [List.length_take]
      · refine ih (cs.drop chunkStep) (pos + chunkStep) ?_ w h1
        simp only [List.length_drop, chunkStep, chunkSize, chunkOverlap] at h ⊢
        omega

theorem windowsFromAux_chain (fuel : Nat) (cs : List Char) (pos : Nat) :
    List.Chain' (fun p q => p.1 + p.2.length ≤ q.1 + chunkOverlap)
      (windowsFromAux fuel cs pos) := by
  induction fuel generalizing cs pos with
  | zero => simp [windowsFromAux]
  | succ n ih =>
    simp only [windowsFromAux]
    split
    · simp
    · rename_i hgt
      rw [List.chain'_cons']
      refine ⟨?_, ih (cs.drop chunkStep) (pos + chunkStep)⟩
      intro q hq
      obtain ⟨t, l, heq⟩ := windowsFromAux_head n (cs.drop chunkStep) (pos + chunkStep)
      rw [heq] at hq
      simp at hq
      subst hq
      have : (cs.take chunkSize).length ≤ chunkSize := by simp [List.length_take]
      simp only [chunkStep, chunkSize, chunkOverlap] at this ⊢
      omega

theorem windowsFrom_of_le (cs : List Char) (pos : Nat) (h : cs.length ≤ chunkSize) :
    windowsFrom cs pos = [(pos, cs)] := by
  unfold windowsFrom
  cases hl : cs.length with
  | zero => simp [windowsFromAux]
  | succ n =>
    simp only [windowsFromAux]
    rw [if_pos h]

theorem two_le_windowsFrom (cs : List Char) (pos : Nat) (h : chunkSize < cs.length) :
    2 ≤ (windowsFrom cs pos).length := by
  unfold windowsFrom
  cases hl : cs.length with
  | zero =>
    rw [hl] at h
    exact absurd h (Nat.not_lt_zero _)
  | succ n =>
    simp only [windowsFromAux]
    rw [if_neg (Nat.not_le.mpr h)]
    simp only [List.length_cons]
    have hne := windowsFromAux_ne_nil n (cs.drop chunkStep) (pos + chunkStep)
    have hpos := List.length_pos.mpr hne
    omega

theorem windowsFrom_len_le (cs : List Char) (pos : Nat) :
    ∀ w ∈ windowsFrom cs pos, w.2.length ≤ chunkSize :=
  windowsFromAux_len_le cs.length cs pos (Nat.le_add_right _ _)

theorem windowsFrom_chain (cs : List Char) (pos : Nat) :
    List.Chain' (fun p q => p.1 + p.2.length ≤ q.1 + chunkOverlap)
      (windowsFrom cs pos) :=
  windowsFromAux_chain cs.length cs pos

theorem splitText_of_le (s : String) (h : s.length ≤ chunkSize) :
    splitText s = [s] := by
  unfold splitText
  rw [windowsFrom_of_le s.toList 0 (by rw [string_toList_length]; exact h)]
  simp [string_mk_toList]

theorem mem_insertSorted (score : Document → Nat) (d x : Document) (l : List Document) :
    x ∈ insertSorted score d l ↔ x = d ∨ x ∈ l := by
  induction l with
  | nil => simp [insertSorted]
  | cons e es ih =>
    simp only [insertSorted]
    split
    · simp
    · rw [List.mem_cons, ih, List.mem_cons]
      tauto

theorem mem_sortByScore (score : Document → Nat) (x : Document) (l : List Document) :
    x ∈ sortByScore score l ↔ x ∈ l := by
  induction l with
  | nil => simp [sortByScore]
  | cons e es ih =>
    show x ∈ insertSorted score e (sortByScore score es) ↔ _
    rw [mem_insertSorted, ih, List.mem_cons]

theorem mem_foldl_add_to_chroma (e : Document) (batches : List (List Document)) :
    ∀ acc : List Document,
      (e ∈ batches.foldl add_to_chroma acc ↔ e ∈ acc ∨ ∃ b ∈ batches, e ∈ b) := by
  induction batches with
  | nil => intro acc; simp
  | cons b bs ih =>
    intro acc
    rw [List.foldl_cons, ih (add_to_chroma acc b)]
    unfold add_to_chroma
    rw [List.mem_append]
    constructor
    · rintro ((h | h) | ⟨c, hc, hec⟩)
      · exact Or.inl h
      · exact Or.inr ⟨b, List.mem_cons_self b bs, h⟩
      · exact Or.inr ⟨c, List.mem_cons_of_mem b hc, hec⟩
    · rintro (h | ⟨c, hc, hec⟩)
      · exact Or.inl (Or.inl h)
      · rcases List.mem_cons.mp hc with rfl | hc
        · exact Or.inl (Or.inr hec)
        · exact Or.inr ⟨c, hc, hec⟩

theorem mem_storeOf (e : Document) (batches : List (List Document)) :
    e ∈ storeOf batches ↔ ∃ b ∈ batches, e ∈ b := by
  unfold storeOf
  rw [mem_foldl_add_to_chroma]
  simp

theorem fetch_content_eq (o : String → FetchResult) (urls : List String) :
    fetch_content o urls =
      (urls.flatMap (fun u => (fetch_one o u).1),
       urls.flatMap (fun u => (fetch_one o u).2)) := by
  have aux : ∀ (us : List String) (m : List Msg) (d : List Document),
      us.foldl
        (fun acc url =>
          let r := fetch_one o url
          (acc.1 ++ r.1, acc.2 ++ r.2))
        (m, d) =
      (m ++ us.flatMap (fun u => (fetch_one o u).1),
       d ++ us.flatMap (fun u => (fetch_one o u).2)) := by
    intro us
    induction us with
    | nil => intro m d; simp
    | cons u rest ih =>
      intro m d
      simp only [List.foldl_cons, ih, List.flatMap_cons, List.append_assoc]
  unfold fetch_content
  rw [aux]
  simp

/-! ### Claim theorems -/

/-- C4: every SourceDocument whose text has length at most 800 characters is
split by `split_document` into exactly one chunk, and that chunk's text (and
source) equals the original document character for character. -/
theorem C4_short_document_single_chunk (d : Document)
    (h : d.page_content.length ≤ 800) :
    split_document [d] = [d] := by
  simp [split_document, splitText_of_le d.page_content h]

/-- Witness for C4 at a concrete 11-character document. -/
theorem C4_short_document_single_chunk_witness :
    (Document.mk "hello world" "https://example.com/a").page_content.length ≤ 800
    ∧ split_document [Document.mk "hello world" "https://example.com/a"] =
        [Document.mk "hello world" "https://example.com/a"] :=
  ⟨by decide, C4_short_document_single_chunk _ (by decide)⟩

/-- C5: every SourceDocument whose text is longer than 800 characters yields
at least two chunks, each chunk text is at most 800 characters long, and any
two character-adjacent chunk windows of the document overlap by at most 80
characters (window `p` ends at `p.1 + p.2.length`, the next window `q` starts
at `q.1`, so the overlap `p.1 + p.2.length - q.1` is at most 80). -/
theorem C5_long_document_chunk_bounds (d : Document)
    (h : 800 < d.page_content.length) :
    2 ≤ (split_document [d]).length
    ∧ (∀ c ∈ split_document [d], c.page_content.length ≤ 800)
    ∧ List.Chain' (fun p q => p.1 + p.2.length ≤ q.1 + 80)
        (windowsFrom d.page_content.toList 0) := by
  have hlen : chunkSize < d.page_content.toList.length := by
    rw [string_toList_length]
    exact h
  refine ⟨?_, ?_, ?_⟩
  · have h2 := two_le_windowsFrom d.page_content.toList 0 hlen
    have hl : (split_document [d]).length = (windowsFrom d.page_content.toList 0).length := by
      simp [split_document, splitText]
    omega
  · intro c hc
    simp only [split_document, List.flatMap_cons, List.flatMap_nil, List.append_nil,
      List.mem_map, splitText] at hc
    obtain ⟨t, ht, rfl⟩ := hc
    obtain ⟨w, hw, rfl⟩ := ht
    have hb := windowsFrom_len_le d.page_content.toList 0 w hw
    simpa [chunkSize] using hb
  · exact windowsFrom_chain d.page_content.toList 0

set_option maxRecDepth 20000 in
/-- Witness for C5 at a concrete 801-character document. -/
theorem C5_long_document_chunk_bounds_witness :
    800 < (Document.mk (String.mk (List.replicate 801 'a')) "https://example.com/a").page_content.length
    ∧ (2 ≤ (split_document [Document.mk (String.mk (List.replicate 801 'a')) "https://example.com/a"]).length
      ∧ (∀ c ∈ split_document [Document.mk (String.mk (List.replicate 801 'a')) "https://example.com/a"],
          c.page_content.length ≤ 800)
      ∧ List.Chain' (fun p q => p.1 + p.2.length ≤ q.1 + 80)
          (windowsFrom (Document.mk (String.mk (List.replicate 801 'a')) "https://example.com/a").page_content.toList 0)) :=
  ⟨by decide, C5_long_document_chunk_bounds _ (by decide)⟩

/-- C6: every chunk produced by `split_document` carries the source URL of
the document it was derived from, unchanged, and the chunk (with that same
tag) is what `add_to_chroma` appends to the persistent store. -/
theorem C6_chunk_source_traceability (docs : List Document) (c : Document)
    (hc : c ∈ split_document docs) :
    (∃ d ∈ docs, c.source = d.source)
    ∧ ∀ store : List Document, c ∈ add_to_chroma store (split_document docs) := by
  constructor
  · simp only [split_document, List.mem_flatMap, List.mem_map] at hc
    obtain ⟨d, hd, t, ht, rfl⟩ := hc
    exact ⟨d, hd, rfl⟩
  · intro store
    exact List.mem_append_right store hc

/-- Witness for C6 at a concrete document and the empty store. -/
theorem C6_chunk_source_traceability_witness :
    (Document.mk "hi" "https://example.com/a") ∈
        split_document [Document.mk "hi" "https://example.com/a"]
    ∧ (∃ d ∈ [Document.mk "hi" "https://example.com/a"],
        (Document.mk "hi" "https://example.com/a").source = d.source)
    ∧ (Document.mk "hi" "https://example.com/a") ∈
        add_to_chroma []
          (split_document [Document.mk "hi" "https://example.com/a"]) :=
  ⟨by decide,
   (C6_chunk_source_traceability _ _ (by decide)).1,
   (C6_chunk_source_traceability _ _ (by decide)).2 []⟩

/-- C3: for every similarity oracle, query, bound `k` (the application passes
`k = 5`) and history of `add` calls, `retrieve` returns at most `k` entries,
and every returned entry belongs to some batch previously passed to
`add_to_chroma`; nothing that was never added is returned. -/
theorem C3_retrieve_bounded_and_sound (sim : String → Document → Nat)
    (q : String) (k : Nat) (batches : List (List Document)) (e : Document)
    (he : e ∈ retrieve sim q k (storeOf batches)) :
    (retrieve sim q k (storeOf batches)).length ≤ k
    ∧ ∃ b ∈ batches, e ∈ b := by
  constructor
  · unfold retrieve
    rw [List.length_take]
    exact Nat.min_le_left _ _
  · have hs : e ∈ sortByScore (sim q) (storeOf batches) :=
      List.take_subset k _ he
    rw [mem_sortByScore] at hs
    exact (mem_storeOf e batches).mp hs

/-- Witness for C3 at a constant similarity oracle, `k = 5`, and a single
one-chunk `add` batch. -/
theorem C3_retrieve_bounded_and_sound_witness :
    (Document.mk "t" "https://example.com/a") ∈
        retrieve (fun _ _ => 0) "q" 5 (storeOf [[Document.mk "t" "https://example.com/a"]])
    ∧ ((retrieve (fun _ _ => 0) "q" 5 (storeOf [[Document.mk "t" "https://example.com/a"]])).length ≤ 5
      ∧ ∃ b ∈ [[Document.mk "t" "https://example.com/a"]],
          (Document.mk "t" "https://example.com/a") ∈ b) :=
  ⟨by decide, C3_retrieve_bounded_and_sound _ _ _ _ _ (by decide)⟩

/-- C7: per-URL failure isolation in `fetch_content`.  Both the message
stream and the document list are the concatenation of each URL's individual
contribution (so one URL's outcome never affects another's, and fetching
continues past a failure); a submitted URL `u` whose fetch raises
contributes no document and is reported by exactly an info message followed
by the per-URL failure error message, which appears in the overall message
output; and no returned document carries `u` as its source — in particular
an input list all of whose URLs fail yields no documents at all. -/
theorem C7_per_url_failure_isolation (o : String → FetchResult)
    (urls : List String) (u e : String)
    (hu : o u = FetchResult.failure e) (hmem : u ∈ urls) :
    (fetch_content o urls).1 = urls.flatMap (fun v => (fetch_one o v).1)
    ∧ (fetch_content o urls).2 = urls.flatMap (fun v => (fetch_one o v).2)
    ∧ (fetch_one o u).1 =
        [Msg.info ("Fetching content from " ++ u ++ "..."),
         Msg.error ("Failed to fetch " ++ u ++ ": " ++ e)]
    ∧ (fetch_one o u).2 = []
    ∧ Msg.error ("Failed to fetch " ++ u ++ ": " ++ e) ∈ (fetch_content o urls).1
    ∧ ∀ d ∈ (fetch_content o urls).2, d.source ≠ u := by
  have heq := fetch_content_eq o urls
  have hmsgs : (fetch_content o urls).1 = urls.flatMap (fun v => (fetch_one o v).1) := by
    rw [heq]
  have hdocs : (fetch_content o urls).2 = urls.flatMap (fun v => (fetch_one o v).2) := by
    rw [heq]
  have honemsg : (fetch_one o u).1 =
      [Msg.info ("Fetching content from " ++ u ++ "..."),
       Msg.error ("Failed to fetch " ++ u ++ ": " ++ e)] := by
    unfold fetch_one
    rw [hu]
  have honedoc : (fetch_one o u).2 = [] := by
    unfold fetch_one
    rw [hu]
  refine ⟨hmsgs, hdocs, honemsg, honedoc, ?_, ?_⟩
  · rw [hmsgs]
    refine List.mem_flatMap.mpr ⟨u, hmem, ?_⟩
    rw [honemsg]
    simp
  · intro d hd
    rw [hdocs] at hd
    obtain ⟨v, hv, hdv⟩ := List.mem_flatMap.mp hd
    unfold fetch_one at hdv
    intro hsrc
    cases hov : o v with
    | failure ev =>
      rw [hov] at hdv
      simp at hdv
    | success t =>
      rw [hov] at hdv
      by_cases ht : t = ""
      · simp [ht] at hdv
      · simp [ht] at hdv
        rw [hdv] at hsrc
        simp at hsrc
        rw [hsrc] at hov
        rw [hu] at hov
        exact FetchResult.noConfusion hov

/-- Witness for C7 with the demo oracle on the list ["u1", "bad"]: fetching
"u1" succeeds, "bad" fails and is reported while "u1" still contributes. -/
theorem C7_per_url_failure_isolation_witness :
    demoOracle "bad" = FetchResult.failure "boom"
    ∧ "bad" ∈ ["u1", "bad"]
    ∧ ((fetch_content demoOracle ["u1", "bad"]).1 =
          ["u1", "bad"].flatMap (fun v => (fetch_one demoOracle v).1)
        ∧ (fetch_content demoOracle ["u1", "bad"]).2 =
            ["u1", "bad"].flatMap (fun v => (fetch_one demoOracle v).2)
        ∧ (fetch_one demoOracle "bad").1 =
            [Msg.info ("Fetching content from " ++ "bad" ++ "..."),
             Msg.error ("Failed to fetch " ++ "bad" ++ ": " ++ "boom")]
        ∧ (fetch_one demoOracle "bad").2 = []
        ∧ Msg.error ("Failed to fetch " ++ "bad" ++ ": " ++ "boom") ∈
            (fetch_content demoOracle ["u1", "bad"]).1
        ∧ ∀ d ∈ (fetch_content demoOracle ["u1", "bad"]).2, d.source ≠ "bad") :=
  ⟨by decide, by decide,
   C7_per_url_failure_isolation demoOracle ["u1", "bad"] "bad" "boom"
     (by decide) (by decide)⟩

/-- C1: deferred-deletion happy path.  From any state where the index
directory exists (ACTIVE), pressing "Clear Database" leaves the index
directory in place and writes the marker (MARKED_FOR_DELETION, durable on
disk); at the next startup, when `shutil.rmtree` succeeds, the resolution
removes both the index directory and the marker (DELETED, marker consumed,
back to ACTIVE with no index). -/
theorem C1_deferred_deletion_happy_path (s : AppState)
    (h : s.fs.chromaExists = true) :
    (clear_button_action true s).1.fs.chromaExists = true
    ∧ (clear_button_action true s).1.fs.markerExists = true
    ∧ (startup RmOutcome.ok (clear_button_action true s).1).1.fs.chromaExists = false
    ∧ (startup RmOutcome.ok (clear_button_action true s).1).1.fs.markerExists = false := by
  obtain ⟨⟨c, m⟩, idx, pu⟩ := s
  cases c with
  | false => simp at h
  | true => simp [clear_button_action, clear_database, startup, check_deletion_marker]

/-- Witness for C1 from an active state with no pending marker. -/
theorem C1_deferred_deletion_happy_path_witness :
    (AppState.mk ⟨true, false⟩ [] []).fs.chromaExists = true
    ∧ ((clear_button_action true (AppState.mk ⟨true, false⟩ [] [])).1.fs.chromaExists = true
      ∧ (clear_button_action true (AppState.mk ⟨true, false⟩ [] [])).1.fs.markerExists = true
      ∧ (startup RmOutcome.ok (clear_button_action true (AppState.mk ⟨true, false⟩ [] [])).1).1.fs.chromaExists = false
      ∧ (startup RmOutcome.ok (clear_button_action true (AppState.mk ⟨true, false⟩ [] [])).1).1.fs.markerExists = false) :=
  ⟨rfl, C1_deferred_deletion_happy_path _ rfl⟩

/-- C2: locked-deletion path.  When the marker and the index directory both
exist at startup and `shutil.rmtree` raises `PermissionError`, the marker
file is removed anyway (so the delete is not retried at later startups) and
exactly the "locked, delete by hand and restart" error message is surfaced.
The resolution routine is embedded as a total function, so no exception
escapes it. -/
theorem C2_locked_deletion_path (fs : FS)
    (hm : fs.markerExists = true) (hc : fs.chromaExists = true) :
    (check_deletion_marker RmOutcome.permissionError fs).1.markerExists = false
    ∧ (check_deletion_marker RmOutcome.permissionError fs).2.2 = [Msg.error lockedMsg] := by
  simp [check_deletion_marker, hm, hc]

/-- Witness for C2 at the marked-and-locked state. -/
theorem C2_locked_deletion_path_witness :
    (FS.mk true true).markerExists = true
    ∧ (FS.mk true true).chromaExists = true
    ∧ ((check_deletion_marker RmOutcome.permissionError (FS.mk true true)).1.markerExists = false
      ∧ (check_deletion_marker RmOutcome.permissionError (FS.mk true true)).2.2 = [Msg.error lockedMsg]) :=
  ⟨rfl, rfl, C2_locked_deletion_path _ rfl rfl⟩

/-- C9 counterexample: at a startup where no marker file exists (the ordinary
"no action needed" case, here with the index directory present), the startup
hook surfaces zero messages, refuting "never zero messages". -/
theorem C9_counterexample_no_marker_no_message :
    (check_deletion_marker RmOutcome.ok (FS.mk true false)).2.2.length = 0 := rfl

/-- C9 amended: the startup hook surfaces at most one message — exactly one
(deletion success, locked, or other failure) when the marker file exists, and
none at all when it does not (the "no action needed" outcome is silent). -/
theorem C9_amended_message_count (rm : RmOutcome) (fs : FS) :
    (check_deletion_marker rm fs).2.2.length =
      if fs.markerExists then 1 else 0 := by
  obtain ⟨c, m⟩ := fs
  cases m <;> cases c <;> cases rm <;> rfl

/-- C10: if a "Process Articles" submission (with at least one non-blank URL)
yields no documents from `fetch_content`, the handler changes nothing — not
the index, not the filesystem, not `processed_urls` — and ends its messages
with the single error message; chunking and indexing contribute nothing. -/
theorem C10_no_documents_no_write (o : String → FetchResult)
    (u1 u2 u3 : String) (s : AppState)
    (h0 : [u1, u2, u3].filter (fun u => decide (u ≠ "")) ≠ [])
    (h : (fetch_content o ([u1, u2, u3].filter (fun u => decide (u ≠ "")))).2 = []) :
    (process_button_action o u1 u2 u3 s).1 = s
    ∧ (process_button_action o u1 u2 u3 s).2 =
        (fetch_content o ([u1, u2, u3].filter (fun u => decide (u ≠ "")))).1
          ++ [Msg.error "No content could be retrieved from the provided URLs."] := by
  have hred : process_button_action o u1 u2 u3 s =
      (s, (fetch_content o ([u1, u2, u3].filter (fun u => decide (u ≠ "")))).1
            ++ [Msg.error "No content could be retrieved from the provided URLs."]) := by
    simp only [process_button_action]
    rw [if_neg h0, if_pos h]
  rw [hred]
  exact ⟨rfl, rfl⟩

/-- Witness for C10: submitting only the failing URL "bad". -/
theorem C10_no_documents_no_write_witness :
    ["bad", "", ""].filter (fun u => decide (u ≠ "")) ≠ []
    ∧ (fetch_content demoOracle (["bad", "", ""].filter (fun u => decide (u ≠ "")))).2 = []
    ∧ ((process_button_action demoOracle "bad" "" "" initialState).1 = initialState
      ∧ (process_button_action demoOracle "bad" "" "" initialState).2 =
          (fetch_content demoOracle (["bad", "", ""].filter (fun u => decide (u ≠ "")))).1
            ++ [Msg.error "No content could be retrieved from the provided URLs."]) :=
  ⟨by decide, by decide,
   C10_no_documents_no_write demoOracle "bad" "" "" initialState (by decide) (by decide)⟩

/-- C8 counterexample: process "u1" (succeeds), then process "u2" together
with "bad" (the latter fails).  Afterwards `processed_urls` is
`["u2", "bad"]`: it omits "u1", which was successfully ingested in this
process lifetime (its chunk is still in the index), and it contains "bad",
which was never ingested (no index entry carries it).  So `processed_urls`
does not equal the set of successfully ingested URLs. -/
theorem C8_counterexample_overwrite_and_failed_url :
    "u1" ∉ (process_button_action demoOracle "u2" "bad" ""
        (process_button_action demoOracle "u1" "" "" initialState).1).1.processed_urls
    ∧ "bad" ∈ (process_button_action demoOracle "u2" "bad" ""
        (process_button_action demoOracle "u1" "" "" initialState).1).1.processed_urls
    ∧ (∃ d ∈ (process_button_action demoOracle "u2" "bad" ""
        (process_button_action demoOracle "u1" "" "" initialState).1).1.index,
          d.source = "u1")
    ∧ ∀ d ∈ (process_button_action demoOracle "u2" "bad" ""
        (process_button_action demoOracle "u1" "" "" initialState).1).1.index,
          d.source ≠ "bad" := by
  decide

/-- C8 amended: `processed_urls` equals the non-blank URLs of the most recent
"Process Articles" submission for which `fetch_content` returned at least one
document (all the URLs of that submission, including any that individually
failed), rather than the cumulative set of successfully ingested URLs; it is
reset to empty by the clear action and at process startup. -/
theorem C8_amended_processed_urls (o : String → FetchResult)
    (u1 u2 u3 : String) (wOk : Bool) (rm : RmOutcome) (s : AppState)
    (h0 : [u1, u2, u3].filter (fun u => decide (u ≠ "")) ≠ [])
    (hdocs : (fetch_content o ([u1, u2, u3].filter (fun u => decide (u ≠ "")))).2 ≠ []) :
    (process_button_action o u1 u2 u3 s).1.processed_urls =
        [u1, u2, u3].filter (fun u => decide (u ≠ ""))
    ∧ (clear_button_action wOk s).1.processed_urls = []
    ∧ (startup rm s).1.processed_urls = [] := by
  refine ⟨?_, ?_, ?_⟩
  · simp only [process_button_action]
    rw [if_neg h0, if_neg hdocs]
  · cases wOk <;> simp [clear_button_action, clear_database]
  · simp [startup]

/-- Witness for the amended C8 at a successful one-URL submission. -/
theorem C8_amended_processed_urls_witness :
    ["u1", "", ""].filter (fun u => decide (u ≠ "")) ≠ []
    ∧ (fetch_content demoOracle (["u1", "", ""].filter (fun u => decide (u ≠ "")))).2 ≠ []
    ∧ ((process_button_action demoOracle "u1" "" "" initialState).1.processed_urls =
          ["u1", "", ""].filter (fun u => decide (u ≠ ""))
      ∧ (clear_button_action true initialState).1.processed_urls = []
      ∧ (startup RmOutcome.ok initialState).1.processed_urls = []) :=
  ⟨by decide, by decide,
   C8_amended_processed_urls demoOracle "u1" "" "" true RmOutcome.ok initialState
     (by decide) (by decide)⟩

end NewsResearcher
